import Mathlib

/-!
# Verification of the Lacuna game engine and its minimax search bot

A shallow embedding of `game_resources.py` (the `GameManager`, `Piece`,
`PlayerToken` and `Player` classes) and of `bot_classes_yerren.py`
(the `MinimaxBot`), faithful to the Python source.

Modelling conventions:
* Python floats are modelled as exact rationals (`ℚ`).  Comparisons of the
  form `math.sqrt(d) < r` (with `d, r ≥ 0`) are modelled as `d < r^2`, which
  is equivalent for real arithmetic.
* Python exceptions (`ZeroDivisionError` in `get_point_on_line`,
  `ValueError` in `list.remove`, the `TypeError` of `tuple(None)` and the
  `NameError` of an unbound loop variable in `MinimaxBot.make_move`) are
  modelled by `Option`: `none` means the call raised.
* The immutable configuration (`num_colours`, `num_pieces`,
  `num_player_tokens`, the two players' colours) is never mutated by any
  method of the source; it is hoisted into a separate `Config` parameter.
* The derived per-piece annotations `closest_token` / `closest_distance`
  are recomputed by `update()` from the pieces and placed tokens before
  every use; they are modelled as the derived function `closestToken`
  rather than as stored fields.
* Display-only data (pygame surfaces, player names, the pool of unplaced
  tokens, `ai_move_ready` and friends) is omitted: no game-logic method
  reads it.
-/

namespace Lacuna

/- Batteries marks the `Rat` field operations `@[irreducible]`; concrete
evaluation of the model (the `decide` proofs below) needs them to unfold. -/
attribute [local semireducible] Rat.mul Rat.add Rat.sub Rat.inv Rat.ofScientific

/-- A point of the board, in screen (pixel) coordinates or normalized
coordinates depending on context. -/
abbrev Pt := ℚ × ℚ

/-- Squared Euclidean distance between two points. -/
def dist2 (a b : Pt) : ℚ := (a.1 - b.1) ^ 2 + (a.2 - b.2) ^ 2

/-- An RGB colour triple, compared only for equality. -/
abbrev Colour := ℕ × ℕ × ℕ

/-- `Piece` from `game_resources.py`: a capturable board object.  The
radius is the constant `piece_radius = 14` for every piece and is kept as
the constant `pieceRadius` rather than a field. -/
structure Piece where
  x : ℚ
  y : ℚ
  colourIndex : ℕ
deriving DecidableEq, Repr

instance : Inhabited Piece := ⟨⟨0, 0, 0⟩⟩

/-- `PlayerToken` from `game_resources.py`.  Its effective radius is the
constant `player_token_radius + player_token_border_width = 13` for every
token (`effectiveTokenRadius`). -/
structure PlayerToken where
  x : ℚ
  y : ℚ
  colour : Colour
  playerIndex : ℕ
deriving DecidableEq, Repr

/-- The game phase tag: `"playing"`, `"end_game"` or `"game_over"`. -/
inductive Phase where
  | playing
  | endGame
  | gameOver
deriving DecidableEq, Repr

/-- The mutable per-player state (`Player.collected_pieces`,
`Player.placed_tokens`, `Player.collected_by_colour`).  The Python dict
`collected_by_colour = {i: 0 for i in range(num_colours)}` is modelled as a
list of length `num_colours` indexed by colour. -/
structure Player where
  collectedPieces : List Piece
  placedTokens : List PlayerToken
  collectedByColour : List ℕ
deriving DecidableEq, Repr

/-- The immutable configuration of a game: `GameManager.num_colours`,
`num_pieces`, `num_player_tokens` (validated by the constructor's asserts)
and the two players' colours (set once by `set_players`/`create_player` and
never mutated). -/
structure Config where
  numColours : ℕ
  numPieces : ℕ
  numPlayerTokens : ℕ
  colour0 : Colour
  colour1 : Colour
deriving DecidableEq, Repr

/-- The mutable state of a `GameManager`: the two players' lists, whose
turn it is, the remaining pieces and the phase. -/
structure GameState where
  player0 : Player
  player1 : Player
  currentPlayerIndex : ℕ
  pieces : List Piece
  gamePhase : Phase
deriving DecidableEq, Repr

/-! ## Geometry constants (from `GameManager.__init__`) -/

/-- `board_radius = 450`. -/
def boardRadius : ℚ := 450

/-- `piece_radius = 14`. -/
def pieceRadius : ℚ := 14

/-- `effective_player_token_radius = player_token_radius (10) +
player_token_border_width (3)`. -/
def effectiveTokenRadius : ℚ := 13

/-- `window_size[0] // 2` with `window_size = (2*450+800, 2*450+100)`. -/
def centerX : ℚ := 850

/-- `window_size[1] // 2`. -/
def centerY : ℚ := 500

/-! ## Player and state accessors -/

/-- `Player.reset_player`: empty capture lists, zeroed colour counters. -/
def freshPlayer (cfg : Config) : Player :=
  ⟨[], [], List.replicate cfg.numColours 0⟩

/-- `game_manager.players[i]` for `i ∈ {0, 1}`. -/
def getPlayer (s : GameState) (i : ℕ) : Player :=
  if i = 0 then s.player0 else s.player1

/-- Replace `game_manager.players[i]`. -/
def setPlayer (s : GameState) (i : ℕ) (p : Player) : GameState :=
  if i = 0 then { s with player0 := p } else { s with player1 := p }

/-- The `current_player` property. -/
def currentPlayer (s : GameState) : Player :=
  getPlayer s s.currentPlayerIndex

/-- The colour of `players[i]` (held in the immutable config). -/
def playerColour (cfg : Config) (i : ℕ) : Colour :=
  if i = 0 then cfg.colour0 else cfg.colour1

/-- `set_next_player`: `current_player_index = (current_player_index + 1) % 2`. -/
def setNextPlayer (s : GameState) : GameState :=
  { s with currentPlayerIndex := (s.currentPlayerIndex + 1) % 2 }

/-- All placed tokens in the iteration order `for player in self.players:
for token in player.placed_tokens`. -/
def allPlacedTokens (s : GameState) : List PlayerToken :=
  s.player0.placedTokens ++ s.player1.placedTokens

/-- Increment `collected_by_colour[c]`.  (Python raises `KeyError` for an
out-of-range colour; the theorems below carry `c < l.length` hypotheses
where this matters, mirroring the keys created by the constructor.) -/
def incColour (l : List ℕ) (c : ℕ) : List ℕ :=
  l.set c (l.getD c 0 + 1)

/-! ## Snapshots (`export_current_state` / `import_state`) -/

/-- One player's entry in the exported tuple. -/
structure PlayerDetails where
  collectedPieces : List Piece
  placedTokens : List PlayerToken
  collectedByColour : List ℕ
deriving DecidableEq, Repr

/-- The tuple returned by `GameManager.export_current_state`. -/
structure Snapshot where
  details0 : PlayerDetails
  details1 : PlayerDetails
  pieces : List Piece
  currentPlayerIndex : ℕ
  gamePhase : Phase
deriving DecidableEq, Repr

/-- `GameManager.export_current_state`: shallow copies of both players'
lists, the remaining pieces, the current player index and the phase. -/
def exportCurrentState (s : GameState) : Snapshot :=
  ⟨⟨s.player0.collectedPieces, s.player0.placedTokens, s.player0.collectedByColour⟩,
   ⟨s.player1.collectedPieces, s.player1.placedTokens, s.player1.collectedByColour⟩,
   s.pieces, s.currentPlayerIndex, s.gamePhase⟩

/-- Do both players have `len(placed_tokens) == num_player_tokens`? -/
def bothBudgetsFull (cfg : Config) (s : GameState) : Prop :=
  s.player0.placedTokens.length = cfg.numPlayerTokens ∧
    s.player1.placedTokens.length = cfg.numPlayerTokens

instance (cfg : Config) (s : GameState) : Decidable (bothBudgetsFull cfg s) := by
  unfold bothBudgetsFull; infer_instance

/-- `GameManager.update`: moves the phase from `"playing"` to `"end_game"`
when both players have placed all their tokens; also recomputes the
per-piece `closest_token` annotations, which are modelled as the derived
function `closestToken` and therefore need no explicit recomputation. -/
def update (cfg : Config) (s : GameState) : GameState :=
  if s.gamePhase = Phase.playing ∧ bothBudgetsFull cfg s then
    { s with gamePhase := Phase.endGame }
  else s

/-- `GameManager.import_state`: overwrites every modelled state field from
the snapshot (the configuration is immutable) and then calls `update()`.
Note the result depends only on the snapshot, never on the state the
manager held before the call. -/
def importState (cfg : Config) (snap : Snapshot) : GameState :=
  update cfg
    ⟨⟨snap.details0.collectedPieces, snap.details0.placedTokens, snap.details0.collectedByColour⟩,
     ⟨snap.details1.collectedPieces, snap.details1.placedTokens, snap.details1.collectedByColour⟩,
     snap.currentPlayerIndex, snap.pieces, snap.gamePhase⟩

/-! ## Geometry -/

/-- `GameManager.get_point_on_line`: closest point on the segment between
`start` and `e` to `p`, by clamped parametric projection.  When the two
endpoints coincide the Python division `/ (px*px + py*py)` raises
`ZeroDivisionError`, modelled as `none`. -/
def getPointOnLine (start e : Pt) (p : Pt) : Option Pt :=
  let px := e.1 - start.1
  let py := e.2 - start.2
  if px * px + py * py = 0 then none
  else
    let u := ((p.1 - start.1) * px + (p.2 - start.2) * py) / (px * px + py * py)
    let u := if u > 1 then 1 else if u < 0 then 0 else u
    some (start.1 + u * px, start.2 + u * py)

/-- `unnormalize_coordinates`. -/
def unnormalizeCoordinates (p : Pt) : Pt :=
  (p.1 * (2 * boardRadius) + (centerX - boardRadius),
   p.2 * (2 * boardRadius) + (centerY - boardRadius))

/-- `normalize_coordinates`. -/
def normalizeCoordinates (p : Pt) : Pt :=
  ((p.1 - (centerX - boardRadius)) / (2 * boardRadius),
   (p.2 - (centerY - boardRadius)) / (2 * boardRadius))

/-- Does a hypothetical token at `(x, y)` overlap an object at `(ox, oy)`
of radius `r`?  (`PlayerToken.overlaps_with_object`:
`distance < self.radius + other.radius`.) -/
def tokenOverlaps (x y ox oy r : ℚ) : Bool :=
  dist2 (x, y) (ox, oy) < (effectiveTokenRadius + r) ^ 2

/-- `GameManager.check_token_placement` (the spec's `placementFits`): a
test token at `(x, y)` must not overlap any remaining piece other than the
selected ones, any selected piece, or any placed token. -/
def checkTokenPlacement (s : GameState) (x y : ℚ) (sel : List Piece) : Bool :=
  if s.pieces.any (fun p => !(sel.contains p) && tokenOverlaps x y p.x p.y pieceRadius) then
    false
  else if sel.any (fun p => tokenOverlaps x y p.x p.y pieceRadius) then
    false
  else if (allPlacedTokens s).any
      (fun t => tokenOverlaps x y t.x t.y effectiveTokenRadius) then
    false
  else true

/-- One obstruction test of `check_line_intersection`: project the object
at `pos` onto the segment and compare the distance with the object's
radius; `none` if the projection raised. -/
def segmentBlockedBy (start e pos : Pt) (radius : ℚ) : Option Bool :=
  match getPointOnLine start e pos with
  | none => none
  | some q => some (decide (dist2 q pos < radius ^ 2))

/-- The loop of `check_line_intersection` over a list of obstacles
(`(position, radius)` pairs), short-circuiting on the first hit and
propagating the first raised projection. -/
def blockedInList (start e : Pt) : List (Pt × ℚ) → Option Bool
  | [] => some false
  | (pos, r) :: rest =>
    match segmentBlockedBy start e pos r with
    | none => none
    | some true => some true
    | some false => blockedInList start e rest

/-- `GameManager.check_line_intersection`: is the segment between the two
pieces obstructed by any non-excluded piece or by any placed token? -/
def checkLineIntersection (s : GameState) (start e : Piece) (sel : List Piece) :
    Option Bool :=
  match blockedInList (start.x, start.y) (e.x, e.y)
      ((s.pieces.filter (fun p => !(sel.contains p))).map
        (fun p => ((p.x, p.y), pieceRadius))) with
  | none => none
  | some true => some true
  | some false =>
    blockedInList (start.x, start.y) (e.x, e.y)
      ((allPlacedTokens s).map (fun t => ((t.x, t.y), effectiveTokenRadius)))

/-! ## Placing a token (`place_player_token`) and capturing pieces -/

/-- `list.remove(piece)`: removes the first occurrence, raising
`ValueError` (modelled as `none`) when the piece is absent. -/
def removePiece (l : List Piece) (p : Piece) : Option (List Piece) :=
  if p ∈ l then some (l.erase p) else none

/-- The capture loop of `place_player_token`: for each selected piece,
remove it from the remaining pieces and append it to the current player's
captures, incrementing the colour counter. -/
def capturePieces (sel : List Piece) (s : GameState) : Option GameState :=
  sel.foldl
    (fun acc p =>
      match acc with
      | none => none
      | some st =>
        match removePiece st.pieces p with
        | none => none
        | some ps =>
          let cur := getPlayer st st.currentPlayerIndex
          some (setPlayer { st with pieces := ps } st.currentPlayerIndex
            { cur with
              collectedPieces := cur.collectedPieces ++ [p],
              collectedByColour := incColour cur.collectedByColour p.colourIndex }))
    (some s)

/-- `GameManager.place_player_token`.  Returns `some (false, s)` on a
failed validation (state unchanged), `some (true, s')` on success, and
`none` when the call raised (coincident selected pieces, or a selected
piece absent from the remaining pieces). -/
def placePlayerToken (cfg : Config) (s : GameState) (sel : List Piece)
    (position : Pt) (isNormalized : Bool) : Option (Bool × GameState) :=
  if sel.length ≠ 2 then some (false, s)
  else if cfg.numPlayerTokens ≤ (currentPlayer s).placedTokens.length then some (false, s)
  else
    let pos := if isNormalized then unnormalizeCoordinates position else position
    match sel with
    | [a, b] =>
      match getPointOnLine (a.x, a.y) (b.x, b.y) pos with
      | none => none
      | some lp =>
        if 100 < dist2 lp pos then some (false, s)
        else if checkTokenPlacement s lp.1 lp.2 sel then
          let tok : PlayerToken :=
            ⟨lp.1, lp.2, playerColour cfg s.currentPlayerIndex, s.currentPlayerIndex⟩
          let cur := currentPlayer s
          let s1 := setPlayer s s.currentPlayerIndex
            { cur with placedTokens := cur.placedTokens ++ [tok] }
          match capturePieces sel s1 with
          | none => none
          | some s2 => some (true, s2)
        else some (false, s)
    | _ => some (false, s)

/-- `GameManager.manual_apply_move`: place the token (normalized
coordinates), advance the player on success, then `update()`. -/
def manualApplyMove (cfg : Config) (s : GameState) (sel : Piece × Piece) (pos : Pt) :
    Option GameState :=
  match placePlayerToken cfg s [sel.1, sel.2] pos true with
  | none => none
  | some (res, s1) => some (update cfg (if res then setNextPlayer s1 else s1))

/-! ## End-game collection and scoring -/

/-- The `closest_token` annotation of a piece, as recomputed by
`update()`: the first strictly-closest placed token over both players'
tokens in iteration order. -/
def closestToken (s : GameState) (p : Piece) : Option PlayerToken :=
  (allPlacedTokens s).foldl
    (fun acc t =>
      match acc with
      | none => some (t, dist2 (p.x, p.y) (t.x, t.y))
      | some (t0, d0) =>
        let d := dist2 (p.x, p.y) (t.x, t.y)
        if d < d0 then some (t, d) else some (t0, d0))
    none
  |>.map Prod.fst

/-- `GameManager.collect_end_game_pieces`: each remaining piece with a
closest token is awarded to the first player owning a placed token of that
token's colour; then the remaining pieces are cleared. -/
def collectEndGamePieces (s : GameState) : GameState :=
  let awarded := s.pieces.foldl
    (fun st p =>
      match closestToken st p with
      | none => st
      | some ct =>
        if (getPlayer st 0).placedTokens.any (fun t => t.colour = ct.colour) then
          let pl := getPlayer st 0
          setPlayer st 0
            { pl with
              collectedPieces := pl.collectedPieces ++ [p],
              collectedByColour := incColour pl.collectedByColour p.colourIndex }
        else if (getPlayer st 1).placedTokens.any (fun t => t.colour = ct.colour) then
          let pl := getPlayer st 1
          setPlayer st 1
            { pl with
              collectedPieces := pl.collectedPieces ++ [p],
              collectedByColour := incColour pl.collectedByColour p.colourIndex }
        else st)
    s
  { awarded with pieces := [] }

/-- `GameManager.count_collected_colour_wins`: for each player, the number
of colours with `collected_by_colour[c] > num_pieces // 2`. -/
def countCollectedColourWins (cfg : Config) (s : GameState) : ℕ × ℕ :=
  (s.player0.collectedByColour.countP (fun k => decide (cfg.numPieces / 2 < k)),
   s.player1.collectedByColour.countP (fun k => decide (cfg.numPieces / 2 < k)))

/-- `GameManager.determine_winner`, as the index of the returned player:
`players[0]` iff player 0's colour-win count is strictly larger. -/
def determineWinner (cfg : Config) (s : GameState) : ℕ :=
  if (countCollectedColourWins cfg s).1 > (countCollectedColourWins cfg s).2 then 0 else 1

/-- The phase-and-sweep part of `GameManager.game_inner_step`.  In the
`"playing"` phase the Python method delegates to `handle_click` (human
input routing / executing a stored AI move), which is outside the scope of
the claims; that branch is modelled as `none`. -/
def gameInnerStep (s : GameState) : Option (Bool × GameState) :=
  if s.gamePhase = Phase.gameOver then some (true, s)
  else if s.gamePhase = Phase.endGame then
    some (false, { collectEndGamePieces s with gamePhase := Phase.gameOver })
  else none

/-! ## Valid token placements (`get_valid_token_placements`) -/

/-- `np.linspace(0, 1, n)`: `n` evenly spaced values from 0 to 1.  For
`n = 1` numpy returns `[0.0]` (only the start). -/
def linspace (n : ℕ) : List ℚ :=
  if n = 0 then []
  else if n = 1 then [0]
  else (List.range n).map (fun i : ℕ => (i : ℚ) / ((n : ℚ) - 1))

/-- The sample points of `get_valid_token_placements`: the point at
parameter `t` is `start + t * (e - start)` for each `t` of the linspace. -/
def samplePoints (a b : Piece) (n : ℕ) : List Pt :=
  (linspace n).map (fun t => (a.x + t * (b.x - a.x), a.y + t * (b.y - a.y)))

/-- `GameManager.get_valid_token_placements`: sample `resolution` points
along the segment, keep (normalized) those passing
`check_token_placement`, in sample order. -/
def getValidTokenPlacements (s : GameState) (sel : List Piece) (resolution : ℕ) :
    List Pt :=
  if sel.length ≠ 2 then []
  else
    match sel with
    | [a, b] =>
      (samplePoints a b resolution).foldl
        (fun acc q =>
          if checkTokenPlacement s q.1 q.2 sel then acc ++ [normalizeCoordinates q]
          else acc)
        []
    | _ => []

/-! ## Setup (`__init__`, `reset_and_setup_game`) -/

/-- `GameManager.__init__`: the constructor's `assert` statements, in
order (`0 < num_colours <= 7`, `0 < num_pieces`, `0 < num_player_tokens`);
a failed assert raises `AssertionError`, modelled as `none`.  The player
colours are fixed later by `set_players`/`create_player` and carried in
the config. -/
def gameManagerInit (numColours numPieces numPlayerTokens : ℤ)
    (colour0 colour1 : Colour) : Option Config :=
  if 0 < numColours ∧ numColours ≤ 7 then
    if 0 < numPieces then
      if 0 < numPlayerTokens then
        some ⟨numColours.toNat, numPieces.toNat, numPlayerTokens.toNat, colour0, colour1⟩
      else none
    else none
  else none

/-- `GameManager.reset_and_setup_game`, parameterized by the randomly
generated pieces `gen` and by the index `k` of the randomly chosen initial
capture for the first player. -/
def resetAndSetupGame (cfg : Config) (gen : List Piece) (k : ℕ) : GameState :=
  let chosen := gen.getD k default
  let p0 := freshPlayer cfg
  ⟨{ p0 with
      collectedPieces := p0.collectedPieces ++ [chosen],
      collectedByColour := incColour p0.collectedByColour chosen.colourIndex },
   freshPlayer cfg, 0, gen.erase chosen, Phase.playing⟩

/-! ## Move enumeration (`get_normalized_game_state` connections and
`MinimaxBot.get_possible_placements`) -/

/-- The colour keys of the `pieces_by_colour` defaultdict, in insertion
order (order of first appearance in `self.pieces`). -/
def colourKeys (pieces : List Piece) : List ℕ :=
  pieces.foldl (fun acc p => if p.colourIndex ∈ acc then acc else acc ++ [p.colourIndex]) []

/-- The pieces of one colour group, in `self.pieces` order. -/
def piecesOfColour (pieces : List Piece) (c : ℕ) : List Piece :=
  pieces.filter (fun p => p.colourIndex = c)

/-- All `(i, j)` index pairs of an `n × n` matrix in row-major order. -/
def allIndexPairs (n : ℕ) : List (ℕ × ℕ) :=
  (List.range n).flatMap (fun i => (List.range n).map (fun j => (i, j)))

/-- The `connections` matrix of `get_normalized_game_state` for one colour
group, as the row-major list of index pairs `(i, j)` with `i ≠ j` whose
connecting segment is unobstructed; `none` if a projection raised. -/
def connectionsFor (s : GameState) (ps : List Piece) : Option (List (ℕ × ℕ)) :=
  (allIndexPairs ps.length).foldl
    (fun acc ij =>
      match acc with
      | none => none
      | some l =>
        if ij.1 = ij.2 then some l
        else
          let a := ps.getD ij.1 default
          let b := ps.getD ij.2 default
          match checkLineIntersection s a b [a, b] with
          | none => none
          | some true => some l
          | some false => some (l ++ [ij]))
    (some [])

/-- `MinimaxBot.get_possible_placements`: for every connected same-colour
ordered pair, the valid placements at the bot's resolution; pairs with no
valid placement are skipped.  (The Python method also computes a list
`colour_indices_to_consider` that the enumeration loop never uses; that
dead code is omitted.) -/
def getPossiblePlacements (s : GameState) (resolution : ℕ) :
    Option (List ((Piece × Piece) × List Pt)) :=
  (colourKeys s.pieces).foldl
    (fun acc c =>
      match acc with
      | none => none
      | some l =>
        let ps := piecesOfColour s.pieces c
        match connectionsFor s ps with
        | none => none
        | some conns =>
          some (l ++ conns.filterMap (fun ij =>
            let a := ps.getD ij.1 default
            let b := ps.getD ij.2 default
            let placements := getValidTokenPlacements s [a, b] resolution
            if placements.isEmpty then none else some ((a, b), placements))))
    (some [])

/-- The flattening loop of `recursive_step`: one candidate per
`(pair, placement)` combination. -/
def flattenPossibilities (l : List ((Piece × Piece) × List Pt)) :
    List ((Piece × Piece) × Pt) :=
  l.flatMap (fun pr => pr.2.map (fun t => (pr.1, t)))

/-! ## The score cache (`create_hash`, `get_score_for_ordering`) -/

/-- Rounding to two decimals, modelling the `"{:.2f}"` formatting used by
`__str__`/`create_hash` (the textual key is modelled structurally). -/
def round2 (q : ℚ) : ℤ := ⌊q * 100 + 1 / 2⌋

/-- The contribution of one piece to the hash string:
`f"{x:.2f}x_{y:.2f}y_{colour_index}c"`. -/
def pieceKey (p : Piece) : ℤ × ℤ × ℕ := (round2 p.x, round2 p.y, p.colourIndex)

/-- The contribution of one token to the hash string:
`f"{x:.2f}x_{y:.2f}y_{player_index}p"`. -/
def tokenKey (t : PlayerToken) : ℤ × ℤ × ℕ := (round2 t.x, round2 t.y, t.playerIndex)

/-- The structured content of the string built by `MinimaxBot.create_hash`:
both players' captured pieces and placed tokens, the remaining pieces, the
current player index, the two selected pieces and the rounded placement. -/
structure HashKey where
  collected0 : List (ℤ × ℤ × ℕ)
  placed0 : List (ℤ × ℤ × ℕ)
  collected1 : List (ℤ × ℤ × ℕ)
  placed1 : List (ℤ × ℤ × ℕ)
  remaining : List (ℤ × ℤ × ℕ)
  currentPlayerIndex : ℕ
  sel0 : ℤ × ℤ × ℕ
  sel1 : ℤ × ℤ × ℕ
  posX : ℤ
  posY : ℤ
deriving DecidableEq

/-- `MinimaxBot.create_hash`. -/
def createHash (s : GameState) (sel : Piece × Piece) (pos : Pt) : HashKey :=
  ⟨s.player0.collectedPieces.map pieceKey, s.player0.placedTokens.map tokenKey,
   s.player1.collectedPieces.map pieceKey, s.player1.placedTokens.map tokenKey,
   s.pieces.map pieceKey, s.currentPlayerIndex,
   pieceKey sel.1, pieceKey sel.2, round2 pos.1, round2 pos.2⟩

/-- The `MinimaxBot` object: constructor arguments (kept as unvalidated
integers, exactly as the Python constructor stores them) plus the mutable
`num_nodes` counter and the `previous_scores` cache (a dict modelled as an
association list). -/
structure MinimaxBot where
  resolution : ℤ
  maxDepth : ℤ
  numNodes : ℕ
  previousScores : List (HashKey × ℚ)
  orderMoves : Bool
  oneStepLookahead : Bool
deriving DecidableEq

/-- `MinimaxBot.__init__`: stores the four arguments with no validation of
any kind (the constructor body contains no assert or raise), so
construction always succeeds. -/
def minimaxBotInit (resolution maxDepth : ℤ) (orderMoves oneStepLookahead : Bool) :
    Option MinimaxBot :=
  some ⟨resolution, maxDepth, 0, [], orderMoves, oneStepLookahead⟩

/-- Dictionary lookup in `previous_scores`. -/
def lookupScore (cache : List (HashKey × ℚ)) (k : HashKey) : Option ℚ :=
  match cache.find? (fun p => decide (p.1 = k)) with
  | some p => some p.2
  | none => none

/-- Dictionary assignment `previous_scores[k] = v`. -/
def insertScore (cache : List (HashKey × ℚ)) (k : HashKey) (v : ℚ) :
    List (HashKey × ℚ) :=
  if cache.any (fun p => decide (p.1 = k)) then
    cache.map (fun p => if p.1 = k then (k, v) else p)
  else cache ++ [(k, v)]

/-- `MinimaxBot.get_score_for_ordering`: the cached score of a candidate,
or the sentinel (`-1e10` when maximizing, `1e10` when minimizing) on a
cache miss. -/
def getScoreForOrdering (bot : MinimaxBot) (s : GameState) (takeMax : Bool)
    (move : (Piece × Piece) × Pt) : ℚ :=
  match lookupScore bot.previousScores (createHash s move.1 move.2) with
  | some v => v
  | none => if takeMax then -(10 ^ 10) else 10 ^ 10

/-! ## Stable sorting (Python's `sorted`) -/

/-- Stable insertion of `x` after every element `y` with `le y x`. -/
def insertByLe (le : α → α → Bool) (x : α) : List α → List α
  | [] => [x]
  | y :: ys => if le y x then y :: insertByLe le x ys else x :: y :: ys

/-- A stable sort by a boolean `le`, modelling Python's stable `sorted`. -/
def sortByLe (le : α → α → Bool) (l : List α) : List α :=
  l.foldl (fun acc x => insertByLe le x acc) []

/-- `sorted(l, key=key, reverse=descending)`. -/
def sortedByKey (key : α → ℚ) (descending : Bool) (l : List α) : List α :=
  sortByLe (fun a b => if descending then decide (key b ≤ key a) else decide (key a ≤ key b)) l

/-! ## The evaluator (`MinimaxBot.evaluate_position`) -/

/-- `MinimaxBot.evaluate_position`: the heuristic score of the state from
`targetPlayerIndex`'s perspective, together with the state the game
manager holds after the call (the evaluator snapshots, speculatively runs
the end-game sweep, and restores).  The reward arguments keep their Python
defaults `(100, 10, 5)` at every call site. -/
def evaluatePosition (cfg : Config) (s : GameState) (tpi : ℕ)
    (gameReward colourReward possibleColourReward : ℚ) : ℚ × GameState :=
  let snap := exportCurrentState s
  let score : ℚ := 0
  let scoreAndState :=
    if s.gamePhase = Phase.endGame then
      let sC := collectEndGamePieces s
      let winner := determineWinner cfg sC
      let sR := importState cfg snap
      (score + (if winner = tpi then gameReward else -gameReward), sR)
    else (score, s)
  let score := scoreAndState.1
  let s := scoreAndState.2
  let wins := countCollectedColourWins cfg s
  let score := score +
    (if tpi = 0 then colourReward * wins.1 - colourReward * wins.2
     else colourReward * wins.2 - colourReward * wins.1)
  let sC2 := collectEndGamePieces s
  let wins2 := countCollectedColourWins cfg sC2
  let score := score +
    (if tpi = 0 then possibleColourReward * wins2.1 - possibleColourReward * wins2.2
     else possibleColourReward * wins2.2 - possibleColourReward * wins2.1)
  (score, importState cfg snap)

/-! ## The search (`MinimaxBot.recursive_step`, `MinimaxBot.make_move`) -/

/-- The result of one `recursive_step` call: the returned triple
`(best_pieces, best_placement, best_score)` together with the bot (whose
`num_nodes` / `previous_scores` the call mutates) and the game state the
manager holds after the call. -/
structure StepResult where
  bot : MinimaxBot
  bestPieces : Option (Piece × Piece)
  bestPlacement : Option Pt
  bestScore : ℚ
  state : GameState
deriving DecidableEq

/-- The base case of `recursive_step` (depth 0 or `"end_game"` phase):
increment `num_nodes` and return `(None, None, evaluate_position(...))`.
It never raises. -/
def stepZero (cfg : Config) (bot : MinimaxBot) (s : GameState) (tpi : ℕ) : StepResult :=
  let bot := { bot with numNodes := bot.numNodes + 1 }
  let es := evaluatePosition cfg s tpi 100 10 5
  ⟨bot, none, none, es.1, es.2⟩

/-- The accumulator of the alpha-beta candidate loop.  Python's `break` on
`beta <= alpha` is modelled by the `done` flag, which makes the remaining
iterations no-ops. -/
structure LoopAcc where
  bot : MinimaxBot
  alpha : ℚ
  beta : ℚ
  bestScore : ℚ
  bestPieces : Option (Piece × Piece)
  bestPlacement : Option Pt
  state : GameState
  done : Bool
deriving DecidableEq

/-- One iteration of the candidate loop of `recursive_step`: snapshot,
apply the move, recurse through the continuation `next` (the search at
`depth - 1` with the maximizing role flipped and the loop's current
alpha/beta), update the cache and alpha/beta/best, restore the snapshot,
and record the `beta <= alpha` break in the `done` flag.  The hash of the
move is computed (and the cache updated) only under `order_moves`; the
unconditional `let` here is observationally identical since `createHash`
is pure. -/
def abStep (cfg : Config) (takeMax : Bool)
    (next : MinimaxBot → GameState → ℚ → ℚ → Option StepResult)
    (acc : Option LoopAcc) (mv : (Piece × Piece) × Pt) : Option LoopAcc :=
  match acc with
  | none => none
  | some a =>
    if a.done then some a
    else
      let snap := exportCurrentState a.state
      let moveHash := createHash a.state mv.1 mv.2
      match manualApplyMove cfg a.state mv.1 mv.2 with
      | none => none
      | some st1 =>
        match next a.bot st1 a.alpha a.beta with
        | none => none
        | some r =>
          let b2 := if a.bot.orderMoves then
              { r.bot with
                previousScores := insertScore r.bot.previousScores moveHash r.bestScore }
            else r.bot
          if takeMax then
            let a2 := max a.alpha r.bestScore
            if r.bestScore > a.bestScore then
              some ⟨b2, a2, a.beta, r.bestScore, some mv.1, some mv.2,
                importState cfg snap, a.beta ≤ a2⟩
            else
              some ⟨b2, a2, a.beta, a.bestScore, a.bestPieces, a.bestPlacement,
                importState cfg snap, a.beta ≤ a2⟩
          else
            let b3 := min a.beta r.bestScore
            if r.bestScore < a.bestScore then
              some ⟨b2, a.alpha, b3, r.bestScore, some mv.1, some mv.2,
                importState cfg snap, b3 ≤ a.alpha⟩
            else
              some ⟨b2, a.alpha, b3, a.bestScore, a.bestPieces, a.bestPlacement,
                importState cfg snap, b3 ≤ a.alpha⟩

/-- One iteration of the one-step-lookahead scoring loop of
`recursive_step`: snapshot, apply the candidate, evaluate it with a
depth-0 recursive call (`stepZero`), restore, and record the score. -/
def lookStep (cfg : Config) (tpi : ℕ)
    (acc : Option (MinimaxBot × List ℚ × GameState)) (mv : (Piece × Piece) × Pt) :
    Option (MinimaxBot × List ℚ × GameState) :=
  match acc with
  | none => none
  | some (b, scores, st) =>
    let snap := exportCurrentState st
    match manualApplyMove cfg st mv.1 mv.2 with
    | none => none
    | some st1 =>
      let r := stepZero cfg b st1 tpi
      some (r.bot, scores ++ [r.bestScore], importState cfg snap)

/-- `MinimaxBot.recursive_step`.  The recursion is structural on `depth`;
the candidate loop and the one-step-lookahead scoring loop are folds of
`abStep` resp. `lookStep`, the former recursing at `depth - 1` and the
latter evaluating at depth 0 (`stepZero`, which is exactly
`recursive_step` at depth 0).  `none` models an exception escaping the
call (no snapshot is restored on that path in the source, since there is
no `try`/`finally`). -/
def recursiveStep (cfg : Config) (bot : MinimaxBot) (s : GameState) (depth : ℕ)
    (tpi : ℕ) (takeMax : Bool) (alpha beta : ℚ) : Option StepResult :=
  match depth with
  | 0 => some (stepZero cfg bot s tpi)
  | d + 1 =>
    if s.gamePhase = Phase.endGame then some (stepZero cfg bot s tpi)
    else
      let bot := { bot with numNodes := bot.numNodes + 1 }
      match getPossiblePlacements s bot.resolution.toNat with
      | none => none
      | some possibilities =>
        let bestScore0 : ℚ := if takeMax then -(10 ^ 10) else 10 ^ 10
        let flattened := flattenPossibilities possibilities
        let ordered : Option (MinimaxBot × List ((Piece × Piece) × Pt) × GameState) :=
          if bot.orderMoves then
            some (bot, sortedByKey (fun mv => getScoreForOrdering bot s takeMax mv)
              takeMax flattened, s)
          else if bot.oneStepLookahead && decide (d + 1 > 1) then
            match flattened.foldl (lookStep cfg tpi) (some (bot, [], s)) with
            | none => none
            | some (b, scores, st) =>
              some (b, (sortedByKey (fun pr => pr.1) takeMax (scores.zip flattened)).map
                Prod.snd, st)
          else some (bot, flattened, s)
        match ordered with
        | none => none
        | some (bot1, moves, s1) =>
          match moves.foldl
              (abStep cfg takeMax
                (fun b st al be => recursiveStep cfg b st d tpi (!takeMax) al be))
              (some ⟨bot1, alpha, beta, bestScore0, none, none, s1, false⟩) with
          | none => none
          | some a => some ⟨a.bot, a.bestPieces, a.bestPlacement, a.bestScore, a.state⟩

/-- `MinimaxBot.make_move`.  The internal `GameManager` built by the
method (fresh players, a randomized `reset_and_setup_game`) is immediately
overwritten by `import_state(initial_game_state)`; since `import_state`
depends only on the snapshot, the internal manager is
`importState cfg (exportCurrentState s)`.  `none` models the `TypeError`
of `tuple(None)` when the search found no candidate, the `NameError` when
the deepening loop never ran, or an exception escaping the search. -/
def makeMove (cfg : Config) (bot : MinimaxBot) (s : GameState) :
    Option ((Piece × Piece) × Pt) :=
  let internal := importState cfg (exportCurrentState s)
  let bot := { bot with numNodes := 0 }
  let startDepth : ℤ := if bot.orderMoves then 1 else bot.maxDepth
  let depths : List ℤ :=
    (List.range (bot.maxDepth - startDepth + 1).toNat).map (fun k => startDepth + k)
  let finalAcc : Option (MinimaxBot × GameState × Option StepResult) :=
    depths.foldl
      (fun acc dep =>
        match acc with
        | none => none
        | some (b, st, _) =>
          match recursiveStep cfg b st dep.toNat s.currentPlayerIndex true
              (-(10 ^ 10)) (10 ^ 10) with
          | none => none
          | some r => some (r.bot, r.state, some r))
      (some (bot, internal, none))
  match finalAcc with
  | none => none
  | some (_, _, none) => none
  | some (_, _, some r) =>
    match r.bestPieces, r.bestPlacement with
    | some bp, some pl => some (bp, pl)
    | _, _ => none

/-! ## Reachability side conditions and invariants -/

/-- Phase consistency: `update()` is a no-op on the phase.  Every state
arising in actual play or search satisfies this, because `update()` is
called after every mutation (`manual_apply_move`, `import_state`,
`perform_game_step`) and its only phase change establishes it. -/
def phaseConsistent (cfg : Config) (s : GameState) : Prop :=
  s.gamePhase = Phase.playing → ¬bothBudgetsFull cfg s

instance (cfg : Config) (s : GameState) : Decidable (phaseConsistent cfg s) := by
  unfold phaseConsistent; infer_instance

/-- The per-player invariant of the spec:
`sum(collected_by_colour.values()) == len(collected_pieces)`. -/
def colourInv (p : Player) : Prop :=
  p.collectedByColour.sum = p.collectedPieces.length

instance (p : Player) : Decidable (colourInv p) := by
  unfold colourInv; infer_instance

/-! ## Concrete states used by the counterexamples and witnesses -/

/-- A configuration with two colours, one piece per colour, one token per
player. -/
def cfgTwoColours : Config := ⟨2, 1, 1, (1, 0, 0), (0, 0, 1)⟩

/-- A reachable position with no legal candidate: the two remaining pieces
have different colours, so no same-colour pair is connectable. -/
def stateNoCandidates : GameState :=
  ⟨⟨[], [], [0, 0]⟩, ⟨[], [], [0, 0]⟩, 0, [⟨800, 500, 0⟩, ⟨900, 500, 1⟩], Phase.playing⟩

/-- A `MinimaxBot` with the default construction arguments
`(resolution=15, max_depth=2, order_moves=True, one_step_lookahead=True)`. -/
def defaultBot : MinimaxBot := ⟨15, 2, 0, [], true, true⟩

/-- A configuration with one colour of three pieces and two tokens per
player. -/
def cfgObstructed : Config := ⟨1, 3, 2, (1, 0, 0), (0, 0, 1)⟩

/-- Endpoints at `(100, 100)` and `(300, 100)` with an obstructing piece at
`(120, 100)` sitting directly on the connecting segment. -/
def stateObstructed : GameState :=
  ⟨⟨[], [], [0]⟩, ⟨[], [], [0]⟩, 0,
   [⟨100, 100, 0⟩, ⟨120, 100, 0⟩, ⟨300, 100, 0⟩], Phase.playing⟩

/-- A configuration with one colour of two pieces and one token per
player. -/
def cfgOneColour : Config := ⟨1, 2, 1, (1, 0, 0), (0, 0, 1)⟩

/-- Two same-colour pieces at `(800, 500)` and `(900, 500)` on an otherwise
empty board. -/
def stateTwoPieces : GameState :=
  ⟨⟨[], [], [0]⟩, ⟨[], [], [0]⟩, 0, [⟨800, 500, 0⟩, ⟨900, 500, 0⟩], Phase.playing⟩

/-- A state whose current player has exhausted their token budget
(`cfgOneColour.numPlayerTokens = 1`). -/
def stateBudgetSpent : GameState :=
  ⟨⟨[], [⟨400, 400, (1, 0, 0), 0⟩], [0]⟩, ⟨[], [], [0]⟩, 0,
   [⟨800, 500, 0⟩, ⟨900, 500, 0⟩], Phase.playing⟩

/-- A configuration with one colour of three pieces. -/
def cfgThreePieces : Config := ⟨1, 3, 1, (1, 0, 0), (0, 0, 1)⟩

/-- A finished game in which player 0 holds two of the three pieces of the
single colour (a strict majority). -/
def stateMajority : GameState :=
  ⟨⟨[⟨0, 0, 0⟩, ⟨30, 0, 0⟩], [], [2]⟩, ⟨[], [], [0]⟩, 0, [], Phase.gameOver⟩

/-- A position in the `"end_game"` phase: both players have placed their
single token and one piece remains, closest to player 0's token. -/
def stateEndGame : GameState :=
  ⟨⟨[], [⟨700, 500, (1, 0, 0), 0⟩], [0]⟩, ⟨[], [⟨900, 500, (0, 0, 1), 1⟩], [0]⟩, 0,
   [⟨750, 500, 0⟩], Phase.endGame⟩

/-! # Helper lemmas -/

theorem update_eq_self (cfg : Config) (s : GameState) (h : phaseConsistent cfg s) :
    update cfg s = s := by
  unfold update
  split
  · next hc => exact absurd hc.2 (h hc.1)
  · rfl

theorem importState_export (cfg : Config) (s : GameState) :
    importState cfg (exportCurrentState s) = update cfg s := rfl

theorem importState_export_self (cfg : Config) (s : GameState)
    (h : phaseConsistent cfg s) : importState cfg (exportCurrentState s) = s := by
  rw [importState_export, update_eq_self cfg s h]

theorem evaluatePosition_state (cfg : Config) (s : GameState) (tpi : ℕ)
    (gr cr pr : ℚ) (h : phaseConsistent cfg s) :
    (evaluatePosition cfg s tpi gr cr pr).2 = s := by
  simp only [evaluatePosition]
  exact importState_export_self cfg s h

theorem stepZero_state (cfg : Config) (bot : MinimaxBot) (s : GameState) (tpi : ℕ)
    (h : phaseConsistent cfg s) : (stepZero cfg bot s tpi).state = s := by
  simp only [stepZero]
  exact evaluatePosition_state cfg s tpi 100 10 5 h

theorem foldl_abStep_none (cfg : Config) (tm : Bool)
    (next : MinimaxBot → GameState → ℚ → ℚ → Option StepResult)
    (moves : List ((Piece × Piece) × Pt)) :
    moves.foldl (abStep cfg tm next) none = none := by
  induction moves with
  | nil => rfl
  | cons mv rest ih => rw [List.foldl_cons]; exact ih

theorem abStep_some_state (cfg : Config) (tm : Bool)
    (next : MinimaxBot → GameState → ℚ → ℚ → Option StepResult)
    (a a1 : LoopAcc) (mv : (Piece × Piece) × Pt)
    (hφ : phaseConsistent cfg a.state)
    (h : abStep cfg tm next (some a) mv = some a1) : a1.state = a.state := by
  simp only [abStep] at h
  split at h
  · cases h; rfl
  · cases hm : manualApplyMove cfg a.state mv.1 mv.2 <;> simp only [hm] at h
    · cases h
    · next st1 =>
      cases hn : next a.bot st1 a.alpha a.beta <;> simp only [hn] at h
      · cases h
      · split at h <;> split at h <;>
          (cases h; exact importState_export_self cfg a.state hφ)

theorem foldl_abStep_frame (cfg : Config) (tm : Bool)
    (next : MinimaxBot → GameState → ℚ → ℚ → Option StepResult) :
    ∀ (moves : List ((Piece × Piece) × Pt)) (a out : LoopAcc),
      phaseConsistent cfg a.state →
      moves.foldl (abStep cfg tm next) (some a) = some out → out.state = a.state := by
  intro moves
  induction moves with
  | nil =>
    intro a out _ h
    cases h; rfl
  | cons mv rest ih =>
    intro a out hφ h
    rw [List.foldl_cons] at h
    cases hstep : abStep cfg tm next (some a) mv <;> rw [hstep] at h
    · rw [foldl_abStep_none] at h; cases h
    · next a1 =>
      have h1 : a1.state = a.state := abStep_some_state cfg tm next a a1 mv hφ hstep
      rw [← h1]
      exact ih a1 out (h1 ▸ hφ) h

theorem foldl_lookStep_none (cfg : Config) (tpi : ℕ)
    (moves : List ((Piece × Piece) × Pt)) :
    moves.foldl (lookStep cfg tpi) none = none := by
  induction moves with
  | nil => rfl
  | cons mv rest ih => rw [List.foldl_cons]; exact ih

theorem lookStep_some_state (cfg : Config) (tpi : ℕ)
    (acc out : MinimaxBot × List ℚ × GameState) (mv : (Piece × Piece) × Pt)
    (hφ : phaseConsistent cfg acc.2.2)
    (h : lookStep cfg tpi (some acc) mv = some out) : out.2.2 = acc.2.2 := by
  obtain ⟨b, scores, st⟩ := acc
  simp only [lookStep] at h
  cases hm : manualApplyMove cfg st mv.1 mv.2 <;> simp only [hm] at h
  · cases h
  · cases h
    exact importState_export_self cfg st hφ

theorem foldl_lookStep_frame (cfg : Config) (tpi : ℕ) :
    ∀ (moves : List ((Piece × Piece) × Pt)) (acc out : MinimaxBot × List ℚ × GameState),
      phaseConsistent cfg acc.2.2 →
      moves.foldl (lookStep cfg tpi) (some acc) = some out → out.2.2 = acc.2.2 := by
  intro moves
  induction moves with
  | nil =>
    intro acc out _ h
    cases h; rfl
  | cons mv rest ih =>
    intro acc out hφ h
    rw [List.foldl_cons] at h
    cases hstep : lookStep cfg tpi (some acc) mv <;> rw [hstep] at h
    · rw [foldl_lookStep_none] at h; cases h
    · next a1 =>
      have h1 : a1.2.2 = acc.2.2 := lookStep_some_state cfg tpi acc a1 mv hφ hstep
      rw [← h1]
      exact ih a1 out (h1 ▸ hφ) h

theorem getPlayer_setPlayer (s : GameState) (i : ℕ) (p : Player) :
    getPlayer (setPlayer s i p) i = p := by
  unfold getPlayer setPlayer
  by_cases h : i = 0 <;> simp [h]

theorem setPlayer_pieces (s : GameState) (i : ℕ) (p : Player) :
    (setPlayer s i p).pieces = s.pieces := by
  unfold setPlayer
  by_cases h : i = 0 <;> simp [h]

theorem setPlayer_currentPlayerIndex (s : GameState) (i : ℕ) (p : Player) :
    (setPlayer s i p).currentPlayerIndex = s.currentPlayerIndex := by
  unfold setPlayer
  by_cases h : i = 0 <;> simp [h]

theorem setPlayer_gamePhase (s : GameState) (i : ℕ) (p : Player) :
    (setPlayer s i p).gamePhase = s.gamePhase := by
  unfold setPlayer
  by_cases h : i = 0 <;> simp [h]

theorem setPlayer_player1_of_zero (s : GameState) (i : ℕ) (p : Player) (h : i = 0) :
    (setPlayer s i p).player1 = s.player1 := by
  unfold setPlayer
  simp [h]

theorem setPlayer_player0_of_ne (s : GameState) (i : ℕ) (p : Player) (h : ¬i = 0) :
    (setPlayer s i p).player0 = s.player0 := by
  unfold setPlayer
  simp [h]

theorem removePiece_eq_some (l : List Piece) (p : Piece) (l2 : List Piece) :
    removePiece l p = some l2 ↔ p ∈ l ∧ l2 = l.erase p := by
  unfold removePiece
  split <;> simp_all [eq_comm]

/-- What the capture loop does on a two-element selection. -/
theorem capturePieces_pair (a b : Piece) (st s2 : GameState)
    (h : capturePieces [a, b] st = some s2) :
    a ∈ st.pieces ∧ b ∈ st.pieces.erase a ∧
    s2.pieces = (st.pieces.erase a).erase b ∧
    s2.currentPlayerIndex = st.currentPlayerIndex ∧
    s2.gamePhase = st.gamePhase ∧
    getPlayer s2 st.currentPlayerIndex =
      { collectedPieces := (getPlayer st st.currentPlayerIndex).collectedPieces ++ [a, b],
        placedTokens := (getPlayer st st.currentPlayerIndex).placedTokens,
        collectedByColour :=
          incColour (incColour (getPlayer st st.currentPlayerIndex).collectedByColour
            a.colourIndex) b.colourIndex } ∧
    (st.currentPlayerIndex = 0 → s2.player1 = st.player1) ∧
    (¬st.currentPlayerIndex = 0 → s2.player0 = st.player0) := by
  simp only [capturePieces, List.foldl_cons, List.foldl_nil] at h
  cases hra : removePiece st.pieces a <;> simp only [hra] at h
  · cases h
  · rename_i ps
    simp only [setPlayer_pieces] at h
    cases hrb : removePiece ps b <;> simp only [hrb] at h
    · cases h
    · rename_i ps2
      cases h
      obtain ⟨hmema, hpsa⟩ := (removePiece_eq_some st.pieces a ps).mp hra
      obtain ⟨hmemb, hpsb⟩ := (removePiece_eq_some ps b ps2).mp hrb
      subst hpsa
      subst hpsb
      by_cases hidx : st.currentPlayerIndex = 0 <;>
        simp [getPlayer, setPlayer, currentPlayer, hidx, hmema, hmemb, List.append_assoc]

/-- Success characterization of `place_player_token`: a `True` return
implies every guard passed, and describes the exact mutation (token
appended, both pieces moved from remaining to the current player's
captures with their colour counters incremented, the opponent and the
rest of the state untouched). -/
theorem placePlayerToken_true_spec (cfg : Config) (s : GameState) (sel : List Piece)
    (position : Pt) (isNorm : Bool) (s₁ : GameState)
    (h : placePlayerToken cfg s sel position isNorm = some (true, s₁)) :
    ∃ a b lp, sel = [a, b] ∧
      (currentPlayer s).placedTokens.length < cfg.numPlayerTokens ∧
      getPointOnLine (a.x, a.y) (b.x, b.y)
        (if isNorm then unnormalizeCoordinates position else position) = some lp ∧
      dist2 lp (if isNorm then unnormalizeCoordinates position else position) ≤ 100 ∧
      checkTokenPlacement s lp.1 lp.2 sel = true ∧
      a ∈ s.pieces ∧ b ∈ s.pieces.erase a ∧
      s₁.pieces = (s.pieces.erase a).erase b ∧
      s₁.currentPlayerIndex = s.currentPlayerIndex ∧
      s₁.gamePhase = s.gamePhase ∧
      getPlayer s₁ s.currentPlayerIndex =
        { collectedPieces := (currentPlayer s).collectedPieces ++ [a, b],
          placedTokens := (currentPlayer s).placedTokens ++
            [⟨lp.1, lp.2, playerColour cfg s.currentPlayerIndex, s.currentPlayerIndex⟩],
          collectedByColour :=
            incColour (incColour (currentPlayer s).collectedByColour a.colourIndex)
              b.colourIndex } ∧
      (s.currentPlayerIndex = 0 → s₁.player1 = s.player1) ∧
      (¬s.currentPlayerIndex = 0 → s₁.player0 = s.player0) := by
  simp only [placePlayerToken] at h
  generalize hpos : (if isNorm = true then unnormalizeCoordinates position else position)
    = pos2 at h ⊢
  split at h
  · exact absurd h (by simp)
  · split at h
    · exact absurd h (by simp)
    · split at h
      all_goals try exact absurd h (by simp)
      rename_i hbud sel2 a b hlen
      cases hg : getPointOnLine (a.x, a.y) (b.x, b.y) pos2 <;> simp only [hg] at h
      · cases h
      · rename_i lp
        split at h
        · exact absurd h (by simp)
        · rename_i hfar
          split at h
          · rename_i hcheck
            split at h
            · cases h
            · next s2 hcap =>
              cases h
              have hc := capturePieces_pair a b _ _ hcap
              rw [setPlayer_pieces, setPlayer_currentPlayerIndex, setPlayer_gamePhase,
                getPlayer_setPlayer] at hc
              dsimp only at hc
              obtain ⟨h1, h2, h3, h4, h5, h6, h7, h8⟩ := hc
              exact ⟨a, b, lp, rfl, not_le.mp hbud, hg, not_lt.mp hfar, hcheck,
                h1, h2, h3, h4, h5, h6,
                fun hidx => (h7 hidx).trans (setPlayer_player1_of_zero s _ _ hidx),
                fun hidx => (h8 hidx).trans (setPlayer_player0_of_ne s _ _ hidx)⟩
          · exact absurd h (by simp)

theorem foldl_filter_append {α β : Type} (P : α → Bool) (f : α → β) :
    ∀ (l : List α) (acc : List β),
      l.foldl (fun acc2 q => if P q then acc2 ++ [f q] else acc2) acc
        = acc ++ (l.filter P).map f := by
  intro l
  induction l with
  | nil => intro acc; simp
  | cons x xs ih =>
    intro acc
    rw [List.foldl_cons]
    by_cases hx : P x <;> simp [hx, ih, List.filter_cons]

theorem unnormalize_normalize (p : Pt) :
    unnormalizeCoordinates (normalizeCoordinates p) = p := by
  unfold unnormalizeCoordinates normalizeCoordinates boardRadius centerX centerY
  refine Prod.ext ?_ ?_ <;> dsimp only <;> field_simp

theorem linspace_length (r : ℕ) (hr : 2 ≤ r) : (linspace r).length = r := by
  unfold linspace
  rw [if_neg (by omega), if_neg (by omega), List.length_map, List.length_range]

theorem linspace_zero_mem (r : ℕ) (hr : 2 ≤ r) : (0 : ℚ) ∈ linspace r := by
  unfold linspace
  rw [if_neg (by omega), if_neg (by omega)]
  refine List.mem_map.mpr ⟨0, List.mem_range.mpr (by omega), ?_⟩
  simp

theorem linspace_one_mem (r : ℕ) (hr : 2 ≤ r) : (1 : ℚ) ∈ linspace r := by
  unfold linspace
  rw [if_neg (by omega), if_neg (by omega)]
  refine List.mem_map.mpr ⟨r - 1, List.mem_range.mpr (by omega), ?_⟩
  have h2 : (2 : ℚ) ≤ (r : ℚ) := by exact_mod_cast hr
  rw [Nat.cast_sub (by omega : 1 ≤ r)]
  push_cast
  exact div_self (by linarith)

theorem linspace_pairwise (r : ℕ) (hr : 2 ≤ r) :
    List.Pairwise (· < ·) (linspace r) := by
  unfold linspace
  rw [if_neg (by omega), if_neg (by omega)]
  have h2 : (2 : ℚ) ≤ (r : ℚ) := by exact_mod_cast hr
  refine List.Pairwise.map (fun i : ℕ => (i : ℚ) / ((r : ℚ) - 1)) ?_
    (List.pairwise_lt_range r)
  intro i j hij
  exact (div_lt_div_iff_of_pos_right (by linarith)).mpr (by exact_mod_cast hij)

theorem length_incColour (l : List ℕ) (c : ℕ) : (incColour l c).length = l.length := by
  simp [incColour]

theorem sum_incColour (l : List ℕ) (c : ℕ) (hc : c < l.length) :
    (incColour l c).sum = l.sum + 1 := by
  induction l generalizing c with
  | nil => simp at hc
  | cons x xs ih =>
    cases c with
    | zero => simp [incColour]; omega
    | succ n =>
      have hn : n < xs.length := by simpa using hc
      have : incColour (x :: xs) (n + 1) = x :: incColour xs n := by
        simp [incColour]
      rw [this, List.sum_cons, List.sum_cons, ih n hn]
      omega

theorem update_player0 (cfg : Config) (s : GameState) :
    (update cfg s).player0 = s.player0 := by
  unfold update
  split <;> rfl

theorem update_player1 (cfg : Config) (s : GameState) :
    (update cfg s).player1 = s.player1 := by
  unfold update
  split <;> rfl

/-- The end-game sweep's fold keeps the per-player colour-count invariant:
each awarded piece adds one to both the captured list and the counter. -/
theorem collectFold_inv :
    ∀ (l : List Piece) (st : GameState),
      colourInv st.player0 → colourInv st.player1 →
      (∀ p ∈ l, p.colourIndex < st.player0.collectedByColour.length ∧
        p.colourIndex < st.player1.collectedByColour.length) →
      ∀ (step : GameState → Piece → GameState),
      (step = fun st2 p =>
        match closestToken st2 p with
        | none => st2
        | some ct =>
          if (getPlayer st2 0).placedTokens.any (fun t => t.colour = ct.colour) then
            let pl := getPlayer st2 0
            setPlayer st2 0
              { pl with
                collectedPieces := pl.collectedPieces ++ [p],
                collectedByColour := incColour pl.collectedByColour p.colourIndex }
          else if (getPlayer st2 1).placedTokens.any (fun t => t.colour = ct.colour) then
            let pl := getPlayer st2 1
            setPlayer st2 1
              { pl with
                collectedPieces := pl.collectedPieces ++ [p],
                collectedByColour := incColour pl.collectedByColour p.colourIndex }
          else st2) →
      colourInv (l.foldl step st).player0 ∧ colourInv (l.foldl step st).player1 := by
  intro l
  induction l with
  | nil =>
    intro st h0 h1 _ step _
    exact ⟨h0, h1⟩
  | cons p rest ih =>
    intro st h0 h1 hb step hstep
    rw [List.foldl_cons]
    have hbp := hb p (List.mem_cons_self p rest)
    have e0 := h0
    have e1 := h1
    unfold colourInv at e0 e1
    have hnext : colourInv (step st p).player0 ∧ colourInv (step st p).player1 ∧
        (step st p).player0.collectedByColour.length =
          st.player0.collectedByColour.length ∧
        (step st p).player1.collectedByColour.length =
          st.player1.collectedByColour.length := by
      subst hstep
      cases hct : closestToken st p
      · simp only [hct]
        refine ⟨h0, h1, ?_, ?_⟩ <;> trivial
      · rename_i ct
        simp only [hct]
        split
        · refine ⟨?_, ?_, ?_, ?_⟩ <;>
            simp [getPlayer, setPlayer, colourInv, length_incColour,
              sum_incColour _ _ hbp.1, e0, e1]
        · split
          · refine ⟨?_, ?_, ?_, ?_⟩ <;>
              simp [getPlayer, setPlayer, colourInv, length_incColour,
                sum_incColour _ _ hbp.2, e0, e1]
          · exact ⟨h0, h1, rfl, rfl⟩
    refine ih (step st p) hnext.1 hnext.2.1 ?_ step hstep
    intro q hq
    rw [hnext.2.2.1, hnext.2.2.2]
    exact hb q (List.mem_cons_of_mem p hq)

/-! # The claims -/

/-- **C1**: for every phase-consistent (i.e. reachable) game state, every
depth, target player index and alpha/beta bounds, whenever
`MinimaxBot.recursive_step` returns (including returns where the
`beta <= alpha` cutoff broke out of the candidate loop early), the game
manager's state — remaining pieces, both players' collected pieces,
placed tokens, `collected_by_colour` counters, current player index and
game phase — equals its value before the call. -/
theorem recursiveStep_preserves_state (cfg : Config) (bot : MinimaxBot) (s : GameState)
    (depth tpi : ℕ) (takeMax : Bool) (alpha beta : ℚ) (r : StepResult)
    (hφ : phaseConsistent cfg s)
    (h : recursiveStep cfg bot s depth tpi takeMax alpha beta = some r) :
    r.state = s := by
  cases depth with
  | zero =>
    simp only [recursiveStep] at h
    cases h
    exact stepZero_state cfg bot s tpi hφ
  | succ d =>
    simp only [recursiveStep] at h
    split at h
    · cases h
      exact stepZero_state cfg _ s tpi hφ
    · split at h
      · cases h
      · -- the `ordered` triple (cache ordering / lookahead ordering / raw order)
        split at h
        · cases h
        · rename_i bot1 moves s1 hord
          have hs1 : s1 = s := by
            split at hord
            · cases hord; rfl
            · split at hord
              · split at hord
                · cases hord
                · rename_i b1 scores st hlk
                  cases hord
                  exact foldl_lookStep_frame cfg tpi _ _ (bot1, scores, s1) hφ hlk
              · cases hord; rfl
          subst hs1
          -- the alpha-beta candidate loop restores the snapshot on every path
          split at h
          · cases h
          · rename_i a hf
            cases h
            exact foldl_abStep_frame cfg takeMax _ _ _ a hφ hf

/-- Witness for **C1**: a concrete depth-1 search on a reachable state,
with the side-effect-freedom theorem applied to it. -/
theorem recursiveStep_preserves_state_witness :
    phaseConsistent cfgTwoColours stateNoCandidates ∧
    recursiveStep cfgTwoColours defaultBot stateNoCandidates 1 0 true (-(10 ^ 10))
        (10 ^ 10) =
      some ⟨⟨15, 2, 1, [], true, true⟩, none, none, -(10 ^ 10), stateNoCandidates⟩ ∧
    (StepResult.mk ⟨15, 2, 1, [], true, true⟩ none none (-(10 ^ 10))
        stateNoCandidates).state = stateNoCandidates :=
  ⟨by decide, by decide,
   recursiveStep_preserves_state cfgTwoColours defaultBot stateNoCandidates 1 0 true
     (-(10 ^ 10)) (10 ^ 10) _ (by decide) (by decide)⟩

/-- **C4**: for any reachable (phase-consistent) state,
`import_state(export_current_state())` restores captured pieces, placed
tokens, `collected_by_colour` counters, remaining pieces, current player
index and game phase to their exported values; since `import_state`
depends only on the snapshot (a copy), mutating the live manager between
export and import cannot alter the restored values. -/
theorem snapshot_roundtrip (cfg : Config) (s : GameState)
    (h : phaseConsistent cfg s) :
    importState cfg (exportCurrentState s) = s :=
  importState_export_self cfg s h

/-- Witness for **C4**: the round-trip applied to a concrete reachable
state. -/
theorem snapshot_roundtrip_witness :
    importState cfgOneColour (exportCurrentState stateTwoPieces) = stateTwoPieces :=
  snapshot_roundtrip cfgOneColour stateTwoPieces (by decide)

/-- **C5**: `update()` moves the phase from `"playing"` to `"end_game"`
exactly when both players' placed-token counts equal the configured
`num_player_tokens` (and leaves the phase unchanged otherwise), and the
next `game_inner_step` taken in `"end_game"` performs the end-game sweep
and sets the phase to `"game_over"` with zero remaining pieces. -/
theorem phase_transitions (cfg : Config) (s : GameState) :
    ((update cfg s).gamePhase =
      if s.gamePhase = Phase.playing ∧ bothBudgetsFull cfg s then Phase.endGame
      else s.gamePhase) ∧
    (s.gamePhase = Phase.endGame →
      gameInnerStep s =
        some (false, { collectEndGamePieces s with gamePhase := Phase.gameOver }) ∧
      ({ collectEndGamePieces s with gamePhase := Phase.gameOver }).gamePhase =
        Phase.gameOver ∧
      ({ collectEndGamePieces s with gamePhase := Phase.gameOver }).pieces = []) := by
  constructor
  · unfold update
    split
    · next hc => rfl
    · next hc => rfl
  · intro hend
    refine ⟨?_, rfl, rfl⟩
    simp [gameInnerStep, hend]

/-- Witness for **C5**: the transitions applied to a concrete position in
the `"end_game"` phase. -/
theorem phase_transitions_witness :
    gameInnerStep stateEndGame =
      some (false, { collectEndGamePieces stateEndGame with gamePhase := Phase.gameOver }) :=
  ((phase_transitions cfgOneColour stateEndGame).2 rfl).1

/-- **C6**: `count_collected_colour_wins` counts, for each player, exactly
the colours in which that player holds strictly more than half of the
colour's `num_pieces` total pieces, and `determine_winner` returns the
player with strictly more such colour wins than the opponent. -/
theorem colour_wins_and_winner (cfg : Config) (s : GameState) :
    countCollectedColourWins cfg s =
      (s.player0.collectedByColour.countP (fun k => decide (cfg.numPieces < 2 * k)),
       s.player1.collectedByColour.countP (fun k => decide (cfg.numPieces < 2 * k))) ∧
    ((countCollectedColourWins cfg s).2 < (countCollectedColourWins cfg s).1 →
      determineWinner cfg s = 0) ∧
    ((countCollectedColourWins cfg s).1 < (countCollectedColourWins cfg s).2 →
      determineWinner cfg s = 1) := by
  have hpred : ∀ k : ℕ,
      (decide (cfg.numPieces / 2 < k)) = (decide (cfg.numPieces < 2 * k)) := by
    intro k
    exact decide_eq_decide.mpr
      (by rw [Nat.div_lt_iff_lt_mul (by norm_num), Nat.mul_comm])
  refine ⟨?_, ?_, ?_⟩
  · unfold countCollectedColourWins
    simp only [hpred]
  · intro hlt
    unfold determineWinner
    rw [if_pos hlt]
  · intro hlt
    unfold determineWinner
    rw [if_neg (lt_asymm hlt)]

/-- Witness for **C6**: with one colour of three pieces, a player holding
two of them has won the colour and wins the game. -/
theorem colour_wins_and_winner_witness :
    determineWinner cfgThreePieces stateMajority = 0 :=
  (colour_wins_and_winner cfgThreePieces stateMajority).2.1 (by decide)

/-- Counterexample for **C8**: `MinimaxBot.__init__` happily accepts an
invalid search depth (`-1`) and resolution (`0`) — construction succeeds
instead of failing fast. -/
theorem minimaxBotInit_accepts_invalid :
    minimaxBotInit 0 (-1) true true = some ⟨0, -1, 0, [], true, true⟩ := rfl

/-- **C8 amended**: the `GameManager` constructor fails fast (its asserts
raise) exactly when the number of colours is outside 1–7, the pieces per
colour are not positive, or the tokens per player are not positive; the
`MinimaxBot` constructor performs no validation at all and accepts any
depth, resolution and flag values. -/
theorem constructor_validation :
    (∀ (nc np nt : ℤ) (c0 c1 : Colour),
      (gameManagerInit nc np nt c0 c1).isSome ↔ (0 < nc ∧ nc ≤ 7 ∧ 0 < np ∧ 0 < nt)) ∧
    (∀ (r d : ℤ) (om ol : Bool), minimaxBotInit r d om ol = some ⟨r, d, 0, [], om, ol⟩) := by
  constructor
  · intro nc np nt c0 c1
    unfold gameManagerInit
    split_ifs with h1 h2 h3 <;> simp <;> omega
  · intro r d om ol
    rfl

/-- Witness for **C8**: a valid configuration is accepted. -/
theorem constructor_validation_witness :
    (gameManagerInit 7 7 6 (255, 255, 255) (0, 0, 0)).isSome :=
  (constructor_validation.1 7 7 6 (255, 255, 255) (0, 0, 0)).mpr (by decide)

/-- Counterexample for **C10**: with the acting player's token budget
exhausted, `place_player_token` called with the same piece twice (two
pieces at the same position) returns `False` — it does not raise, because
the budget check precedes the parametric projection. -/
theorem placePlayerToken_budget_before_projection :
    placePlayerToken cfgOneColour stateBudgetSpent
      [⟨800, 500, 0⟩, ⟨800, 500, 0⟩] (0, 0) false = some (false, stateBudgetSpent) := by
  decide

/-- **C10 amended**: `get_point_on_line` raises (`ZeroDivisionError`)
exactly when the two endpoints coincide; consequently
`place_player_token` invoked with two pieces at the same position raises
instead of returning `False` *provided* the piece-count and token-budget
guards pass (with the budget exhausted it returns `False` before reaching
the projection). -/
theorem getPointOnLine_partiality :
    (∀ a p : Pt, getPointOnLine a a p = none) ∧
    (∀ a b p : Pt, (getPointOnLine a b p).isSome ↔ a ≠ b) ∧
    (∀ (cfg : Config) (s : GameState) (a b : Piece) (pos : Pt) (isNorm : Bool),
      a.x = b.x → a.y = b.y →
      (currentPlayer s).placedTokens.length < cfg.numPlayerTokens →
      placePlayerToken cfg s [a, b] pos isNorm = none) := by
  have h1 : ∀ a p : Pt, getPointOnLine a a p = none := by
    intro a p
    simp [getPointOnLine]
  refine ⟨h1, ?_, ?_⟩
  · intro a b p
    constructor
    · intro hs hab
      subst hab
      rw [h1] at hs
      simp at hs
    · intro hab
      simp only [getPointOnLine]
      split
      · next hz =>
        exfalso
        apply hab
        have h0 := (add_eq_zero_iff_of_nonneg (mul_self_nonneg (b.1 - a.1))
          (mul_self_nonneg (b.2 - a.2))).mp hz
        have hx : b.1 = a.1 := by
          have := mul_self_eq_zero.mp h0.1
          linarith
        have hy : b.2 = a.2 := by
          have := mul_self_eq_zero.mp h0.2
          linarith
        exact Prod.ext hx.symm hy.symm
      · simp
  · intro cfg s a b pos isNorm hx hy hbud
    unfold placePlayerToken
    rw [if_neg (by simp), if_neg (not_le.mpr hbud)]
    have hz : getPointOnLine (a.x, a.y) (b.x, b.y)
        (if isNorm then unnormalizeCoordinates pos else pos) = none := by
      rw [← hx, ← hy]
      exact h1 (a.x, a.y) _
    simp only [hz]

/-- Witness for **C10**: the amended claim applied to a concrete call with
the same piece passed twice and budget available: the call raises. -/
theorem getPointOnLine_partiality_witness :
    placePlayerToken cfgOneColour stateTwoPieces
      [⟨800, 500, 0⟩, ⟨800, 500, 0⟩] (0, 0) false = none :=
  getPointOnLine_partiality.2.2 cfgOneColour stateTwoPieces
    ⟨800, 500, 0⟩ ⟨800, 500, 0⟩ (0, 0) false rfl rfl (by decide)

/-- Counterexample for **C3**: `place_player_token` does not reject a
request whose connecting segment is obstructed.  Here the segment from
`(100,100)` to `(300,100)` is obstructed by the piece at `(120,100)`
(`check_line_intersection` returns `True`), yet placing a token at
`(250,100)` succeeds and mutates the state. -/
theorem placePlayerToken_ignores_obstruction :
    checkLineIntersection stateObstructed ⟨100, 100, 0⟩ ⟨300, 100, 0⟩
      [⟨100, 100, 0⟩, ⟨300, 100, 0⟩] = some true ∧
    (placePlayerToken cfgObstructed stateObstructed
      [⟨100, 100, 0⟩, ⟨300, 100, 0⟩] (250, 100) false).map Prod.fst = some true := by
  decide

/-- **C3 amended**: `place_player_token` rejects a wrong piece count, an
exhausted token budget, a requested point farther than 10 units from its
closest point on the connecting segment, and an overlapping placement, by
synchronously returning `False` with the state unchanged; it performs no
segment-obstruction check (that is done at piece-selection/enumeration
time); and only an all-checks-passing request mutates state and returns
`True`. -/
theorem placePlayerToken_atomic (cfg : Config) (s : GameState) (sel : List Piece)
    (position : Pt) (isNorm : Bool) :
    (∀ s₁, placePlayerToken cfg s sel position isNorm = some (false, s₁) → s₁ = s) ∧
    (sel.length ≠ 2 → placePlayerToken cfg s sel position isNorm = some (false, s)) ∧
    (sel.length = 2 → cfg.numPlayerTokens ≤ (currentPlayer s).placedTokens.length →
      placePlayerToken cfg s sel position isNorm = some (false, s)) ∧
    (∀ a b lp, sel = [a, b] →
      getPointOnLine (a.x, a.y) (b.x, b.y)
        (if isNorm then unnormalizeCoordinates position else position) = some lp →
      100 < dist2 lp (if isNorm then unnormalizeCoordinates position else position) →
      placePlayerToken cfg s sel position isNorm = some (false, s)) ∧
    (∀ a b lp, sel = [a, b] →
      getPointOnLine (a.x, a.y) (b.x, b.y)
        (if isNorm then unnormalizeCoordinates position else position) = some lp →
      checkTokenPlacement s lp.1 lp.2 sel = false →
      placePlayerToken cfg s sel position isNorm = some (false, s)) ∧
    (∀ s₁, placePlayerToken cfg s sel position isNorm = some (true, s₁) →
      ∃ a b lp, sel = [a, b] ∧
        (currentPlayer s).placedTokens.length < cfg.numPlayerTokens ∧
        getPointOnLine (a.x, a.y) (b.x, b.y)
          (if isNorm then unnormalizeCoordinates position else position) = some lp ∧
        dist2 lp (if isNorm then unnormalizeCoordinates position else position) ≤ 100 ∧
        checkTokenPlacement s lp.1 lp.2 sel = true ∧
        a ∈ s.pieces ∧ b ∈ s.pieces.erase a ∧
        s₁.pieces = (s.pieces.erase a).erase b ∧
        s₁.currentPlayerIndex = s.currentPlayerIndex ∧
        s₁.gamePhase = s.gamePhase ∧
        getPlayer s₁ s.currentPlayerIndex =
          { collectedPieces := (currentPlayer s).collectedPieces ++ [a, b],
            placedTokens := (currentPlayer s).placedTokens ++
              [⟨lp.1, lp.2, playerColour cfg s.currentPlayerIndex, s.currentPlayerIndex⟩],
            collectedByColour :=
              incColour (incColour (currentPlayer s).collectedByColour a.colourIndex)
                b.colourIndex } ∧
        (s.currentPlayerIndex = 0 → s₁.player1 = s.player1) ∧
        (¬s.currentPlayerIndex = 0 → s₁.player0 = s.player0)) := by
  refine ⟨?_, ?_, ?_, ?_, ?_, ?_⟩
  · intro s₁ h
    simp only [placePlayerToken] at h
    repeat' split at h
    all_goals first
      | (cases h; rfl)
      | cases h
  · intro hlen
    simp only [placePlayerToken]
    rw [if_pos hlen]
  · intro hlen hbud
    simp only [placePlayerToken]
    rw [if_neg (fun hne => hne hlen), if_pos hbud]
  · intro a b lp hsel hg hfar
    subst hsel
    simp only [placePlayerToken]
    rw [if_neg (by simp)]
    by_cases hbud : cfg.numPlayerTokens ≤ (currentPlayer s).placedTokens.length
    · rw [if_pos hbud]
    · rw [if_neg hbud]
      simp only [hg, if_pos hfar]
  · intro a b lp hsel hg hcheck
    subst hsel
    simp only [placePlayerToken]
    rw [if_neg (by simp)]
    by_cases hbud : cfg.numPlayerTokens ≤ (currentPlayer s).placedTokens.length
    · rw [if_pos hbud]
    · rw [if_neg hbud]
      by_cases hfar : 100 < dist2 lp
          (if isNorm then unnormalizeCoordinates position else position)
      · simp only [hg, if_pos hfar]
      · simp [hg, hfar, hcheck]
  · intro s₁ h
    exact placePlayerToken_true_spec cfg s sel position isNorm s₁ h

/-- Witness for **C3**: the budget-exhausted rejection applied to a
concrete request, returning `False` with the state unchanged. -/
theorem placePlayerToken_atomic_witness :
    placePlayerToken cfgOneColour stateBudgetSpent
      [⟨800, 500, 0⟩, ⟨900, 500, 0⟩] (0, 0) false = some (false, stateBudgetSpent) :=
  (placePlayerToken_atomic cfgOneColour stateBudgetSpent
    [⟨800, 500, 0⟩, ⟨900, 500, 0⟩] (0, 0) false).2.2.1 (by decide) (by decide)

/-- Counterexample for **C7**: at resolution 1, `np.linspace(0, 1, 1)`
samples only the start point, so the sample set is not inclusive of both
endpoints: the end piece's position `(900, 500)` is never tested. -/
theorem validPlacements_res1_misses_endpoint :
    samplePoints ⟨800, 500, 0⟩ ⟨900, 500, 0⟩ 1 = [(800, 500)] ∧
    ((900 : ℚ), (500 : ℚ)) ∉ samplePoints ⟨800, 500, 0⟩ ⟨900, 500, 0⟩ 1 ∧
    getValidTokenPlacements stateTwoPieces [⟨800, 500, 0⟩, ⟨900, 500, 0⟩] 1 = [] := by
  decide

/-- **C7 amended**: for every pair of selected pieces and every resolution
`r ≥ 2`, `get_valid_token_placements` returns, in increasing parametric
order, exactly the normalized coordinates of the `r` evenly spaced sample
points — inclusive of both endpoints — at which `check_token_placement`
holds; re-validating every returned placement on the unchanged state
succeeds.  (At `r = 1` only the start point is sampled.) -/
theorem validPlacements_spec (s : GameState) (a b : Piece) (r : ℕ) (hr : 2 ≤ r) :
    getValidTokenPlacements s [a, b] r =
      ((samplePoints a b r).filter
        (fun q => checkTokenPlacement s q.1 q.2 [a, b])).map normalizeCoordinates ∧
    (samplePoints a b r).length = r ∧
    (a.x, a.y) ∈ samplePoints a b r ∧
    (b.x, b.y) ∈ samplePoints a b r ∧
    List.Pairwise (· < ·) (linspace r) ∧
    ∀ q ∈ getValidTokenPlacements s [a, b] r,
      checkTokenPlacement s (unnormalizeCoordinates q).1 (unnormalizeCoordinates q).2
        [a, b] = true := by
  have heq : getValidTokenPlacements s [a, b] r =
      ((samplePoints a b r).filter
        (fun q => checkTokenPlacement s q.1 q.2 [a, b])).map normalizeCoordinates := by
    simp only [getValidTokenPlacements]
    rw [if_neg (by simp)]
    exact (foldl_filter_append _ _ (samplePoints a b r) []).trans
      (by rw [List.nil_append])
  refine ⟨heq, ?_, ?_, ?_, linspace_pairwise r hr, ?_⟩
  · unfold samplePoints
    rw [List.length_map, linspace_length r hr]
  · unfold samplePoints
    refine List.mem_map.mpr ⟨0, linspace_zero_mem r hr, ?_⟩
    simp
  · unfold samplePoints
    refine List.mem_map.mpr ⟨1, linspace_one_mem r hr, ?_⟩
    refine Prod.ext ?_ ?_ <;> dsimp only <;> ring
  · intro q hq
    rw [heq] at hq
    obtain ⟨p, hp, rfl⟩ := List.mem_map.mp hq
    obtain ⟨hpmem, hpcheck⟩ := List.mem_filter.mp hp
    rw [unnormalize_normalize]
    exact hpcheck

/-- Witness for **C7**: the amended claim applied at resolution 3 on two
concrete pieces (the midpoint is the only passing sample). -/
theorem validPlacements_spec_witness :
    getValidTokenPlacements stateTwoPieces [⟨800, 500, 0⟩, ⟨900, 500, 0⟩] 3 =
      ((samplePoints ⟨800, 500, 0⟩ ⟨900, 500, 0⟩ 3).filter
        (fun q => checkTokenPlacement stateTwoPieces q.1 q.2
          [⟨800, 500, 0⟩, ⟨900, 500, 0⟩])).map normalizeCoordinates :=
  (validPlacements_spec stateTwoPieces ⟨800, 500, 0⟩ ⟨900, 500, 0⟩ 3 (by decide)).1

/-- **C9**: `sum(collected_by_colour.values()) == len(collected_pieces)`
holds for each player after creation/reset, and is preserved by
`reset_and_setup_game`'s random initial capture, every successful
`place_player_token`, `collect_end_game_pieces`, and `import_state` of a
snapshot satisfying it.  (The colour-index bounds mirror the dict keys
`0..num_colours-1` created by the constructor.) -/
theorem colour_count_invariant :
    (∀ cfg : Config, colourInv (freshPlayer cfg)) ∧
    (∀ (cfg : Config) (gen : List Piece) (k : ℕ),
      (gen.getD k default).colourIndex < cfg.numColours →
      colourInv (resetAndSetupGame cfg gen k).player0 ∧
      colourInv (resetAndSetupGame cfg gen k).player1) ∧
    (∀ (cfg : Config) (s : GameState) (sel : List Piece) (position : Pt)
        (isNorm : Bool) (s₁ : GameState),
      placePlayerToken cfg s sel position isNorm = some (true, s₁) →
      colourInv s.player0 → colourInv s.player1 →
      (∀ p ∈ sel, p.colourIndex < (currentPlayer s).collectedByColour.length) →
      colourInv s₁.player0 ∧ colourInv s₁.player1) ∧
    (∀ s : GameState, colourInv s.player0 → colourInv s.player1 →
      (∀ p ∈ s.pieces, p.colourIndex < s.player0.collectedByColour.length ∧
        p.colourIndex < s.player1.collectedByColour.length) →
      colourInv (collectEndGamePieces s).player0 ∧
      colourInv (collectEndGamePieces s).player1) ∧
    (∀ (cfg : Config) (snap : Snapshot),
      snap.details0.collectedByColour.sum = snap.details0.collectedPieces.length →
      snap.details1.collectedByColour.sum = snap.details1.collectedPieces.length →
      colourInv (importState cfg snap).player0 ∧
      colourInv (importState cfg snap).player1) := by
  refine ⟨?_, ?_, ?_, ?_, ?_⟩
  · intro cfg
    simp [colourInv, freshPlayer]
  · intro cfg gen k hci
    have hlen : (List.replicate cfg.numColours 0).length = cfg.numColours := by simp
    constructor
    · unfold colourInv resetAndSetupGame freshPlayer
      dsimp only
      rw [sum_incColour _ _ (by simpa using hci)]
      simp
    · unfold colourInv resetAndSetupGame freshPlayer
      simp
  · intro cfg s sel position isNorm s₁ h h0 h1 hbounds
    obtain ⟨a, b, lp, hsel, hbud, hg, hdist, hcheck, hamem, hbmem, hpieces, hcpi,
      hphase, hplayer, hp1, hp0⟩ := placePlayerToken_true_spec cfg s sel position isNorm s₁ h
    subst hsel
    have hba := hbounds a (by simp)
    have hbb := hbounds b (by simp)
    have hcurinv : colourInv
        { collectedPieces := (currentPlayer s).collectedPieces ++ [a, b],
          placedTokens := (currentPlayer s).placedTokens ++
            [⟨lp.1, lp.2, playerColour cfg s.currentPlayerIndex, s.currentPlayerIndex⟩],
          collectedByColour :=
            incColour (incColour (currentPlayer s).collectedByColour a.colourIndex)
              b.colourIndex } := by
      have hcur : colourInv (currentPlayer s) := by
        unfold currentPlayer getPlayer
        by_cases hidx0 : s.currentPlayerIndex = 0 <;> simp [hidx0, h0, h1]
      unfold colourInv at hcur ⊢
      dsimp only
      rw [sum_incColour _ _ (by rw [length_incColour]; exact hbb),
        sum_incColour _ _ hba, hcur]
      simp
    by_cases hidx0 : s.currentPlayerIndex = 0
    · have hget : getPlayer s₁ s.currentPlayerIndex = s₁.player0 := by
        simp [getPlayer, hidx0]
      rw [hget] at hplayer
      rw [hplayer]
      exact ⟨hcurinv, hp1 hidx0 ▸ h1⟩
    · have hget : getPlayer s₁ s.currentPlayerIndex = s₁.player1 := by
        simp [getPlayer, hidx0]
      rw [hget] at hplayer
      rw [hplayer]
      exact ⟨hp0 hidx0 ▸ h0, hcurinv⟩
  · intro s h0 h1 hb
    have hfold := collectFold_inv s.pieces s h0 h1 hb _ rfl
    exact ⟨hfold.1, hfold.2⟩
  · intro cfg snap hd0 hd1
    constructor
    · have := update_player0 cfg
        ⟨⟨snap.details0.collectedPieces, snap.details0.placedTokens,
          snap.details0.collectedByColour⟩,
         ⟨snap.details1.collectedPieces, snap.details1.placedTokens,
          snap.details1.collectedByColour⟩,
         snap.currentPlayerIndex, snap.pieces, snap.gamePhase⟩
      unfold importState
      rw [this]
      exact hd0
    · have := update_player1 cfg
        ⟨⟨snap.details0.collectedPieces, snap.details0.placedTokens,
          snap.details0.collectedByColour⟩,
         ⟨snap.details1.collectedPieces, snap.details1.placedTokens,
          snap.details1.collectedByColour⟩,
         snap.currentPlayerIndex, snap.pieces, snap.gamePhase⟩
      unfold importState
      rw [this]
      exact hd1

/-- Witness for **C9**: the invariant preserved through a concrete
successful `place_player_token`. -/
theorem colour_count_invariant_witness :
    colourInv (GameState.mk
      ⟨[⟨100, 100, 0⟩, ⟨300, 100, 0⟩], [⟨250, 100, (1, 0, 0), 0⟩], [2]⟩
      ⟨[], [], [0]⟩ 0 [⟨120, 100, 0⟩] Phase.playing).player0 ∧
    colourInv (GameState.mk
      ⟨[⟨100, 100, 0⟩, ⟨300, 100, 0⟩], [⟨250, 100, (1, 0, 0), 0⟩], [2]⟩
      ⟨[], [], [0]⟩ 0 [⟨120, 100, 0⟩] Phase.playing).player1 :=
  colour_count_invariant.2.2.1 cfgObstructed stateObstructed
    [⟨100, 100, 0⟩, ⟨300, 100, 0⟩] (250, 100) false _
    (by decide) (by decide) (by decide) (by decide)

/-- **C2** (documenting the code bug): at a ply with no legal (pair,
placement) candidate, `recursive_step` does return the null move
`(None, None, sentinel)` upward — but `MinimaxBot.make_move` then executes
`tuple(best_pieces)` with `best_pieces = None`, raising `TypeError`
(modelled as `none`) instead of substituting a uniform-random legal move
as the claim and the spec require. -/
theorem makeMove_no_fallback :
    (recursiveStep cfgTwoColours defaultBot stateNoCandidates 1 0 true (-(10 ^ 10))
        (10 ^ 10)).map (fun r => (r.bestPieces, r.bestPlacement)) =
      some (none, none) ∧
    makeMove cfgTwoColours defaultBot stateNoCandidates = none := by
  decide

end Lacuna
